import Mathlib

/-!
# Verification of the recycling route optimizer core

A shallow embedding of the routing core of
`src/application/recycling_route_optimizer.py` (class `RouteOptimizer`) and of
the optimization-level table of `src/application/config.py`, with theorems
settling the frozen claims about it.

The tour algorithms (`nearest_neighbor_tsp`, `two_opt_improvement`,
`calculate_route_distance`) operate on an arbitrary distance matrix of
floats in the source; they are embedded generically over a linear ordered
commutative ring `α`, instantiated with `ℤ` for concrete executable
instances and with `ℝ` for the geometric pipeline.  A distance matrix is
embedded as a function `ℕ → ℕ → α` together with its size `n` (the Python
code carries an `n × n` array and reads `n = len(distance_matrix)`).
Fallible Python code (statements that can raise `KeyError` / `IndexError`)
is embedded with `Option`.
-/

namespace RecyclingRouteOptimizer

variable {α : Type} [LinearOrderedCommRing α]

/-- `RouteOptimizer.calculate_route_distance` (lines 149-154): the total
distance of a route is the sum of `D[route[i]][route[i+1]]` over consecutive
pairs; the Python `for` loop accumulating `total` becomes recursion over the
list of consecutive pairs. -/
def calculate_route_distance (D : ℕ → ℕ → α) : List ℕ → α
  | a :: b :: rest => D a b + calculate_route_distance D (b :: rest)
  | _ => 0

/-- `min(unvisited, key=...)` (line 108): the first element of the list
attaining the minimal key, mirroring Python `min`, which keeps the earliest
minimum in iteration order (a CPython set of small consecutive ints iterates
in increasing order, which is the order our `unvisited` list maintains). -/
def argminList (key : ℕ → α) : List ℕ → Option ℕ
  | [] => none
  | x :: xs =>
    match argminList key xs with
    | none => some x
    | some y => if key y < key x then some y else some x

/-- The `while unvisited:` loop of `nearest_neighbor_tsp` (lines 107-111):
repeatedly append the nearest unvisited index and remove it from the
unvisited list.  The loop runs exactly `unvisited.length` times, which is
passed as structural fuel. -/
def nnAux (D : ℕ → ℕ → α) : ℕ → ℕ → List ℕ → List ℕ
  | 0, _, _ => []
  | fuel + 1, current, unvisited =>
    match argminList (fun x => D current x) unvisited with
    | none => []
    | some nearest => nearest :: nnAux D fuel nearest (unvisited.erase nearest)

/-- `RouteOptimizer.nearest_neighbor_tsp` (lines 96-114).  `n` is
`len(distance_matrix)`.  When `start_idx` is not in `set(range(n))` — in
particular on an empty location list, where `n = 0` — the statement
`unvisited.remove(current)` raises `KeyError`, embedded as `none`. -/
def nearest_neighbor_tsp (D : ℕ → ℕ → α) (n : ℕ) (start : ℕ) : Option (List ℕ) :=
  if start < n then
    some ((start :: nnAux D ((List.range n).erase start).length start
      ((List.range n).erase start)) ++ [start])
  else none

/-- `route[:i] + route[i:j+1][::-1] + route[j+1:]` (line 131): reverse the
segment of `route` between positions `i` and `j` inclusive. -/
def twoOptSwap (route : List ℕ) (i j : ℕ) : List ℕ :=
  route.take i ++ ((route.drop i).take (j + 1 - i)).reverse ++ route.drop (j + 1)

/-- The inner `for j in range(i + 1, len(route) - 1)` scan of
`two_opt_improvement` (lines 129-139): the first `j` in the given list whose
2-opt swap strictly beats `bd` (`best_distance`) yields that new route. -/
def scanJ (D : ℕ → ℕ → α) (bd : α) (route : List ℕ) (i : ℕ) : List ℕ → Option (List ℕ)
  | [] => none
  | j :: js =>
    let new_route := twoOptSwap route i j
    if calculate_route_distance D new_route < bd then some new_route
    else scanJ D bd route i js

/-- The outer `for i in range(1, len(route) - 2)` scan (lines 128-142), with
the `break` on `improved`: the first improving pair `(i, j)` in
lexicographic order wins. -/
def scanI (D : ℕ → ℕ → α) (bd : α) (route : List ℕ) : List ℕ → Option (List ℕ)
  | [] => none
  | i :: rest =>
    match scanJ D bd route i (List.range' (i + 1) (route.length - 2 - i)) with
    | some r => some r
    | none => scanI D bd route rest

/-- One full scan over the pairs `(i, j)` with `1 ≤ i < len(route) - 2` and
`i + 1 ≤ j < len(route) - 1`, exactly the ranges of lines 128-129. -/
def scanPairs (D : ℕ → ℕ → α) (bd : α) (route : List ℕ) : Option (List ℕ) :=
  scanI D bd route (List.range' 1 (route.length - 3))

/-- The `for iteration in range(max_iterations)` loop (lines 125-145).  The
state is the current route (the code keeps `route`, `best_route` and
`best_distance`, but `route == best_route` holds at the top of every
iteration and `best_distance` is its distance, so the route determines the
others; `bd` carries `best_distance` as the code does).  A scan with no
improving move is `break`; an improving move replaces the route and the
loop continues with the remaining budget. -/
def twoOptLoop (D : ℕ → ℕ → α) : ℕ → List ℕ → α → List ℕ
  | 0, route, _ => route
  | k + 1, route, bd =>
    match scanPairs D bd route with
    | none => route
    | some nr => twoOptLoop D k nr (calculate_route_distance D nr)

/-- `RouteOptimizer.two_opt_improvement` (lines 116-147).  `max_iterations`
is an integer; Python `range(m)` of a negative `m` is empty, which is
exactly `Int.toNat`. -/
def two_opt_improvement (route : List ℕ) (D : ℕ → ℕ → α) (max_iterations : ℤ) : List ℕ :=
  twoOptLoop D max_iterations.toNat route (calculate_route_distance D route)

/-- Lines 182-183 of `optimize_weekly_routes`: construct the initial tour
with nearest neighbor from the depot (index 0) and refine it with
`two_opt_improvement`, which is called without `max_iterations` and so runs
with the Python default `1000` whatever optimization level the user picked. -/
def plan_route (D : ℕ → ℕ → α) (n : ℕ) : Option (List ℕ) :=
  (nearest_neighbor_tsp D n 0).map (fun initial_route => two_opt_improvement initial_route D 1000)

/-! ## Geometry: Haversine distance (floats embedded as real numbers) -/

/-- `math.radians` : degrees to radians. -/
noncomputable def radians (x : ℝ) : ℝ := x * (Real.pi / 180)

/-- `math.atan2 y x`, the argument of the point `(x, y)` in the plane. -/
noncomputable def atan2 (y x : ℝ) : ℝ := Complex.arg ⟨x, y⟩

/-- `RouteOptimizer.calculate_distance` (lines 58-76): Haversine great-circle
distance with Earth radius 6371 km. -/
noncomputable def calculate_distance (lat1 lon1 lat2 lon2 : ℝ) : ℝ :=
  let R : ℝ := 6371
  let lat1_rad := radians lat1
  let lon1_rad := radians lon1
  let lat2_rad := radians lat2
  let lon2_rad := radians lon2
  let dlat := lat2_rad - lat1_rad
  let dlon := lon2_rad - lon1_rad
  let a := Real.sin (dlat / 2) ^ 2 +
    Real.cos lat1_rad * Real.cos lat2_rad * Real.sin (dlon / 2) ^ 2
  let c := 2 * atan2 (Real.sqrt a) (Real.sqrt (1 - a))
  R * c

/-- `RouteOptimizer.create_distance_matrix` (lines 78-94): the `n × n` array
with zero diagonal and `calculate_distance` off it, embedded as a function on
indices (out-of-range entries, never touched through a matrix of this size,
default to the array-initialising `0`). -/
noncomputable def create_distance_matrix (locations : List (ℝ × ℝ)) : ℕ → ℕ → ℝ :=
  fun i j =>
    if i = j then 0
    else
      calculate_distance (locations.getD i (0, 0)).1 (locations.getD i (0, 0)).2
        (locations.getD j (0, 0)).1 (locations.getD j (0, 0)).2

/-! ## The per-day planner -/

/-- One row of `depot_locations.csv` (columns `Depot`, `Latitude`,
`Longitude`); the `Depot` name column is `name` here. -/
structure Depot where
  name : String
  Latitude : ℝ
  Longitude : ℝ

/-- One collection row of `weekly_routes.csv` for a fixed day (columns
`Location`, `Material`, `Estimated_Weight_kg`, `Latitude`, `Longitude`). -/
structure CollectionRow where
  Location : String
  Material : String
  Estimated_Weight_kg : ℝ
  Latitude : ℝ
  Longitude : ℝ

/-- The inner accumulation of `select_optimal_depot` (lines 213-219): the sum
of distances from one depot to every collection point of the day. -/
noncomputable def depot_day_distance (day_data : List CollectionRow) (depot : Depot) : ℝ :=
  (day_data.map (fun c =>
    calculate_distance depot.Latitude depot.Longitude c.Latitude c.Longitude)).sum

/-- The `for idx, depot in depots.iterrows()` loop of `select_optimal_depot`
(lines 212-223), carrying `best_depot_idx` and `min_total_distance`; the
initial `float('inf')` is `none`, which every finite total beats. -/
noncomputable def selLoop (sc : Depot → ℝ) : List Depot → ℕ → ℕ → Option ℝ → ℕ
  | [], _, best, _ => best
  | d :: ds, idx, _, none => selLoop sc ds (idx + 1) idx (some (sc d))
  | d :: ds, idx, best, some m =>
    if sc d < m then selLoop sc ds (idx + 1) idx (some (sc d))
    else selLoop sc ds (idx + 1) best (some m)

/-- `RouteOptimizer.select_optimal_depot` (lines 207-225): returns
`(best_depot_idx, depots.iloc[best_depot_idx])`; on an empty depot table
`iloc[0]` raises `IndexError`, embedded as `none`. -/
noncomputable def select_optimal_depot (day_data : List CollectionRow) (depots : List Depot) :
    Option (ℕ × Depot) :=
  let best_depot_idx := selLoop (depot_day_distance day_data) depots 0 0 none
  (depots.get? best_depot_idx).map (fun d => (best_depot_idx, d))

/-- The revenue of one collection row after the left merge with the price
table (lines 190-192): a material with no price row merges to `NaN`, whose
product with the weight is skipped by the pandas `sum`, so the row
contributes `0`. -/
noncomputable def row_revenue (prices : List (String × ℝ)) (r : CollectionRow) : ℝ :=
  match prices.lookup r.Material with
  | some p => r.Estimated_Weight_kg * p
  | none => 0

/-- The per-day record stored in `results[day]` (lines 194-203). -/
structure DayResult where
  route : List ℕ
  locations : List (ℝ × ℝ)
  distance : ℝ
  weight : ℝ
  revenue : ℝ
  depot : Depot
  collections : List CollectionRow
  efficiency : ℝ

/-- The body of the per-day loop of `optimize_weekly_routes` (lines 164-203)
for one day's rows: pick the depot, build the location list (depot first),
build the distance matrix, construct and 2-opt-improve the tour (the 2-opt
budget is the Python default `1000` — no optimization level reaches this
code), then attach weight, revenue and efficiency. -/
noncomputable def optimize_day (day_data : List CollectionRow) (depots : List Depot)
    (prices : List (String × ℝ)) : Option DayResult :=
  match select_optimal_depot day_data depots with
  | none => none
  | some (_, depot_info) =>
    let locations := (depot_info.Latitude, depot_info.Longitude) ::
      day_data.map (fun r => (r.Latitude, r.Longitude))
    let dist_matrix := create_distance_matrix locations
    match plan_route dist_matrix locations.length with
    | none => none
    | some optimized_route =>
      let total_distance := calculate_route_distance dist_matrix optimized_route
      let total_weight := (day_data.map (fun r => r.Estimated_Weight_kg)).sum
      let total_revenue := (day_data.map (row_revenue prices)).sum
      some { route := optimized_route
             locations := locations
             distance := total_distance
             weight := total_weight
             revenue := total_revenue
             depot := depot_info
             collections := day_data
             efficiency := if total_distance > 0 then total_revenue / total_distance else 0 }

/-! ## Configuration (`src/application/config.py`) -/

/-- One entry of `OPTIMIZATION_LEVELS`. -/
structure OptimizationLevel where
  iterations : ℕ
  algorithm : String
deriving DecidableEq

/-- `config.DEFAULT_MAX_ITERATIONS` (line 11). -/
def DEFAULT_MAX_ITERATIONS : ℕ := 1000

/-- The `config.OPTIMIZATION_LEVELS` dictionary (lines 12-16). -/
def OPTIMIZATION_LEVELS : String → Option OptimizationLevel := fun level =>
  if level = "Basic (Nearest Neighbor)" then some ⟨0, "nearest_neighbor"⟩
  else if level = "Advanced (2-Opt)" then some ⟨1000, "two_opt"⟩
  else if level = "Premium (Multi-iteration)" then some ⟨5000, "two_opt_premium"⟩
  else none

/-! ## Properties of the 2-opt scan -/

theorem scanJ_eq_some {D : ℕ → ℕ → α} {bd : α} {route : List ℕ} {i : ℕ} :
    ∀ {js nr : List ℕ}, scanJ D bd route i js = some nr →
      calculate_route_distance D nr < bd ∧ ∃ j, j ∈ js ∧ nr = twoOptSwap route i j := by
  intro js
  induction js with
  | nil => intro nr h; exact absurd h (by simp [scanJ])
  | cons j js ih =>
    intro nr h
    simp only [scanJ] at h
    by_cases hc : calculate_route_distance D (twoOptSwap route i j) < bd
    · rw [if_pos hc] at h
      injection h with h2
      subst h2
      exact ⟨hc, j, List.mem_cons_self j js, rfl⟩
    · rw [if_neg hc] at h
      obtain ⟨hlt, j2, hj2, hnr⟩ := ih h
      exact ⟨hlt, j2, List.mem_cons_of_mem j hj2, hnr⟩

theorem scanI_eq_some {D : ℕ → ℕ → α} {bd : α} {route : List ℕ} :
    ∀ {l : List ℕ} {nr : List ℕ}, scanI D bd route l = some nr →
      calculate_route_distance D nr < bd ∧
        ∃ i, i ∈ l ∧ ∃ j, j ∈ List.range' (i + 1) (route.length - 2 - i) ∧
          nr = twoOptSwap route i j := by
  intro l
  induction l with
  | nil => intro nr h; exact absurd h (by simp [scanI])
  | cons i rest ih =>
    intro nr h
    rw [scanI] at h
    rcases hJ : scanJ D bd route i (List.range' (i + 1) (route.length - 2 - i)) with _ | r
    · rw [hJ] at h
      obtain ⟨hlt, i2, hi2, hj⟩ := ih h
      exact ⟨hlt, i2, List.mem_cons_of_mem i hi2, hj⟩
    · rw [hJ] at h
      injection h with h2
      subst h2
      obtain ⟨hlt, j, hj, hnr⟩ := scanJ_eq_some hJ
      exact ⟨hlt, i, List.mem_cons_self i rest, j, hj, hnr⟩

theorem scanPairs_eq_some {D : ℕ → ℕ → α} {bd : α} {route nr : List ℕ}
    (h : scanPairs D bd route = some nr) :
    calculate_route_distance D nr < bd ∧
      ∃ i j, 1 ≤ i ∧ i + 1 ≤ j ∧ j + 1 < route.length ∧ nr = twoOptSwap route i j := by
  obtain ⟨hlt, i, hi, j, hj, hnr⟩ := scanI_eq_some h
  rw [List.mem_range'_1] at hi hj
  exact ⟨hlt, i, j, hi.1, hj.1, by omega, hnr⟩

theorem twoOptLoop_dist_le (D : ℕ → ℕ → α) :
    ∀ (k : ℕ) (route : List ℕ),
      calculate_route_distance D (twoOptLoop D k route (calculate_route_distance D route)) ≤
        calculate_route_distance D route := by
  intro k
  induction k with
  | zero => intro route; exact le_refl _
  | succ k ih =>
    intro route
    rw [twoOptLoop]
    rcases hscan : scanPairs D (calculate_route_distance D route) route with _ | nr
    · exact le_refl _
    · exact le_trans (ih nr) (le_of_lt (scanPairs_eq_some hscan).1)

/-- Claim C1: for every tour, distance matrix and iteration budget, the tour
returned by `two_opt_improvement` is, by `calculate_route_distance` over the
same matrix, no longer than the input tour. -/
theorem two_opt_improvement_never_worse (D : ℕ → ℕ → α) (route : List ℕ) (max_iterations : ℤ) :
    calculate_route_distance D (two_opt_improvement route D max_iterations) ≤
      calculate_route_distance D route :=
  twoOptLoop_dist_le D max_iterations.toNat route

/-- Claim C7: with an iteration budget of `0`, `two_opt_improvement` returns
its input tour unchanged, so the planning pipeline's tour would equal the
nearest-neighbor tour unmodified. -/
theorem two_opt_improvement_budget_zero (D : ℕ → ℕ → α) (route : List ℕ) (n : ℕ) :
    two_opt_improvement route D 0 = route ∧
      (nearest_neighbor_tsp D n 0).map (fun t => two_opt_improvement t D 0) =
        nearest_neighbor_tsp D n 0 := by
  refine ⟨rfl, ?_⟩
  rcases nearest_neighbor_tsp D n 0 with _ | t <;> rfl

/-- Claim C10 (amended): a negative iteration budget is not rejected: Python
`range` of a negative bound is empty, so the improver performs zero
iterations and silently returns the input tour. -/
theorem two_opt_improvement_negative_budget (D : ℕ → ℕ → α) (route : List ℕ) (m : ℤ)
    (h : m < 0) : two_opt_improvement route D m = route := by
  unfold two_opt_improvement
  rw [Int.toNat_of_nonpos (le_of_lt h)]
  rfl

/-- Claim C10 (counterexample to the claim as stated): invoked with the
negative budget `-5`, the improver produces a tour result (the input tour)
instead of failing a precondition check. -/
theorem two_opt_improvement_negative_budget_returns_tour :
    two_opt_improvement [0, 1, 2, 0] (fun _ _ => (1 : ℤ)) (-5) = [0, 1, 2, 0] := by decide

/-- Claim C10 (witness): the amended statement at the concrete budget `-1`. -/
theorem two_opt_improvement_negative_budget_example :
    (-1 : ℤ) < 0 ∧ two_opt_improvement [0, 1, 0] (fun _ _ => (2 : ℤ)) (-1) = [0, 1, 0] :=
  ⟨by decide, two_opt_improvement_negative_budget (fun _ _ => (2 : ℤ)) [0, 1, 0] (-1) (by decide)⟩

/-- Claim C5 (amended): `nearest_neighbor_tsp` started at the depot index `0`
fails — `unvisited.remove(current)` raises `KeyError`, embedded as `none` —
exactly on the empty location list (`n = 0`); for every `n ≥ 1` it returns a
tour. -/
theorem nearest_neighbor_tsp_none_iff (D : ℕ → ℕ → α) (n : ℕ) :
    nearest_neighbor_tsp D n 0 = none ↔ n = 0 := by
  unfold nearest_neighbor_tsp
  split
  · simp only [reduceCtorEq, false_iff]
    omega
  · simp only [true_iff]
    omega

/-- Claim C5 (counterexample to the claim as stated): on the empty location
list (`0 × 0` matrix) the function does not return an empty tour; it raises
`KeyError` (embedded: `none`). -/
theorem nearest_neighbor_tsp_empty :
    nearest_neighbor_tsp (fun _ _ => (0 : ℤ)) 0 0 = none := rfl

/-! ## Structural invariants of the tours -/

theorem argminList_mem {key : ℕ → α} : ∀ {l : List ℕ} {y : ℕ},
    argminList key l = some y → y ∈ l := by
  intro l
  induction l with
  | nil => intro y h; exact absurd h (by simp [argminList])
  | cons x xs ih =>
    intro y h
    rcases hm : argminList key xs with _ | z
    · simp only [argminList, hm] at h
      injection h with h2
      subst h2
      exact List.mem_cons_self x xs
    · simp only [argminList, hm] at h
      by_cases hc : key z < key x
      · rw [if_pos hc] at h
        injection h with h2
        subst h2
        exact List.mem_cons_of_mem x (ih hm)
      · rw [if_neg hc] at h
        injection h with h2
        subst h2
        exact List.mem_cons_self x xs

theorem argminList_eq_none {key : ℕ → α} : ∀ {l : List ℕ},
    argminList key l = none → l = [] := by
  intro l
  cases l with
  | nil => intro _; rfl
  | cons x xs =>
    intro h
    rcases hm : argminList key xs with _ | z
    · simp only [argminList, hm] at h
      exact absurd h (by simp)
    · simp only [argminList, hm] at h
      by_cases hc : key z < key x
      · rw [if_pos hc] at h
        exact absurd h (by simp)
      · rw [if_neg hc] at h
        exact absurd h (by simp)

/-- The visiting order built by the nearest-neighbor loop is a permutation of
the unvisited list it consumes. -/
theorem nnAux_perm (D : ℕ → ℕ → α) :
    ∀ (fuel : ℕ) (u : List ℕ) (current : ℕ), u.length = fuel →
      List.Perm (nnAux D fuel current u) u := by
  intro fuel
  induction fuel with
  | zero =>
    intro u current h
    rw [List.length_eq_zero] at h
    subst h
    exact List.Perm.refl _
  | succ fuel ih =>
    intro u current h
    rw [nnAux]
    rcases hm : argminList (fun x => D current x) u with _ | nearest
    · have hu := argminList_eq_none hm
      subst hu
      simp at h
    · have hmem : nearest ∈ u := argminList_mem hm
      have hlen : (u.erase nearest).length = fuel := by
        rw [List.length_erase_of_mem hmem, h]
        omega
      have hperm := ih (u.erase nearest) nearest hlen
      exact (hperm.cons nearest).trans (List.perm_cons_erase hmem).symm

theorem getLast?_append_right {β : Type} (l l2 : List β) (h : l2.getLast? ≠ none) :
    (l ++ l2).getLast? = l2.getLast? := by
  rw [List.getLast?_append]
  rcases hx : l2.getLast? with _ | x
  · exact absurd hx h
  · rfl

/-- A 2-opt segment reversal keeps the multiset of tour entries. -/
theorem twoOptSwap_perm (route : List ℕ) (i j : ℕ) (h : i ≤ j + 1) :
    List.Perm (twoOptSwap route i j) route := by
  have hdd : (route.drop i).drop (j + 1 - i) = route.drop (j + 1) := by
    rw [List.drop_drop]
    congr 1
    omega
  have hsplit : (route.drop i).take (j + 1 - i) ++ route.drop (j + 1) = route.drop i := by
    rw [← hdd]
    exact List.take_append_drop _ _
  have key : List.Perm (((route.drop i).take (j + 1 - i)).reverse ++ route.drop (j + 1))
      (route.drop i) :=
    (List.Perm.append_right _ (List.reverse_perm _)).trans (by rw [hsplit])
  rw [twoOptSwap, List.append_assoc]
  exact (key.append_left (route.take i)).trans (by rw [List.take_append_drop])

/-- A 2-opt segment reversal with `1 ≤ i` keeps the first tour entry. -/
theorem twoOptSwap_head (route : List ℕ) (i j : ℕ) (h : 1 ≤ i) :
    (twoOptSwap route i j).head? = route.head? := by
  cases route with
  | nil => simp [twoOptSwap]
  | cons a t =>
    cases i with
    | zero => omega
    | succ i2 => simp [twoOptSwap, List.take_succ_cons]

/-- A 2-opt segment reversal with `j + 1 < route.length` keeps the last tour
entry. -/
theorem twoOptSwap_getLast (route : List ℕ) (i j : ℕ) (h : j + 1 < route.length) :
    (twoOptSwap route i j).getLast? = route.getLast? := by
  have hne : route.drop (j + 1) ≠ [] := by
    intro heq
    rw [List.drop_eq_nil_iff] at heq
    omega
  have hne2 : (route.drop (j + 1)).getLast? ≠ none := by
    intro heq
    rw [List.getLast?_eq_none_iff] at heq
    exact hne heq
  have hright : route.getLast? = (route.drop (j + 1)).getLast? := by
    conv_lhs => rw [← List.take_append_drop (j + 1) route]
    exact getLast?_append_right _ _ hne2
  rw [twoOptSwap, List.append_assoc, getLast?_append_right _ _ ?_, getLast?_append_right _ _ hne2,
    ← hright]
  rw [getLast?_append_right _ _ hne2]
  exact hne2

/-- Every iteration of the 2-opt loop keeps the tour a rearrangement of the
input with first and last entries unchanged. -/
theorem twoOptLoop_preserves (D : ℕ → ℕ → α) :
    ∀ (k : ℕ) (route : List ℕ) (bd : α),
      List.Perm (twoOptLoop D k route bd) route ∧
      (twoOptLoop D k route bd).head? = route.head? ∧
      (twoOptLoop D k route bd).getLast? = route.getLast? := by
  intro k
  induction k with
  | zero => intro route bd; exact ⟨List.Perm.refl _, rfl, rfl⟩
  | succ k ih =>
    intro route bd
    rw [twoOptLoop]
    rcases hscan : scanPairs D bd route with _ | nr
    · exact ⟨List.Perm.refl _, rfl, rfl⟩
    · obtain ⟨-, i, j, hi, hij, hjl, hnr⟩ := scanPairs_eq_some hscan
      subst hnr
      obtain ⟨p, hh, hl⟩ := ih (twoOptSwap route i j)
        (calculate_route_distance D (twoOptSwap route i j))
      exact ⟨p.trans (twoOptSwap_perm route i j (by omega)),
        hh.trans (twoOptSwap_head route i j hi),
        hl.trans (twoOptSwap_getLast route i j hjl)⟩

/-- Claim C2: on any `(n+1) × (n+1)` distance matrix, the nearest-neighbor
tour from depot 0 starts and ends at 0, has length `(n+1) + 1` and visits
every non-depot index exactly once (it is a permutation of
`range (n+1) ++ [0]`); and `two_opt_improvement` maps any tour to a
rearrangement of it with the first and last entries unchanged. -/
theorem nearest_neighbor_two_opt_invariant (D : ℕ → ℕ → α) (n : ℕ) :
    ∃ t, nearest_neighbor_tsp D (n + 1) 0 = some t ∧
      t.head? = some 0 ∧ t.getLast? = some 0 ∧ t.length = (n + 1) + 1 ∧
      List.Perm t (List.range (n + 1) ++ [0]) ∧
      ∀ (route : List ℕ) (m : ℤ),
        List.Perm (two_opt_improvement route D m) route ∧
        (two_opt_improvement route D m).head? = route.head? ∧
        (two_opt_improvement route D m).getLast? = route.getLast? := by
  have h0mem : 0 ∈ List.range (n + 1) := by
    rw [List.mem_range]
    exact Nat.succ_pos n
  have hperm : List.Perm
      (nnAux D ((List.range (n + 1)).erase 0).length 0 ((List.range (n + 1)).erase 0))
      ((List.range (n + 1)).erase 0) := nnAux_perm D _ _ _ rfl
  have hlen : (nnAux D ((List.range (n + 1)).erase 0).length 0
      ((List.range (n + 1)).erase 0)).length = n := by
    rw [hperm.length_eq, List.length_erase_of_mem h0mem, List.length_range]
    omega
  refine ⟨(0 :: nnAux D ((List.range (n + 1)).erase 0).length 0 ((List.range (n + 1)).erase 0))
    ++ [0], ?_, ?_, List.getLast?_concat _, ?_, ?_, ?_⟩
  · rw [nearest_neighbor_tsp, if_pos (Nat.succ_pos n)]
  · simp
  · simp only [List.length_append, List.length_cons, List.length_nil]
    omega
  · exact List.Perm.append_right [0] ((hperm.cons 0).trans (List.perm_cons_erase h0mem).symm)
  · intro route m
    exact twoOptLoop_preserves D m.toNat route _

/-! ## Geometry: claims about the Haversine distance -/

theorem atan2_zero_one : atan2 0 1 = 0 := by
  have h : (⟨1, 0⟩ : ℂ) = 1 := by
    apply Complex.ext <;> simp
  rw [atan2, h, Complex.arg_one]

theorem atan2_nonneg (y x : ℝ) (h : 0 ≤ y) : 0 ≤ atan2 y x := by
  rw [atan2, Complex.arg_nonneg_iff]
  exact h

theorem calculate_distance_self (lat lon : ℝ) : calculate_distance lat lon lat lon = 0 := by
  simp only [calculate_distance, sub_self, zero_div, Real.sin_zero]
  norm_num [atan2_zero_one]

theorem calculate_distance_symm (lat1 lon1 lat2 lon2 : ℝ) :
    calculate_distance lat1 lon1 lat2 lon2 = calculate_distance lat2 lon2 lat1 lon1 := by
  have hs : ∀ x y : ℝ, Real.sin ((x - y) / 2) ^ 2 = Real.sin ((y - x) / 2) ^ 2 := by
    intro x y
    rw [show (x - y) / 2 = -((y - x) / 2) by ring, Real.sin_neg]
    ring
  simp only [calculate_distance]
  rw [hs (radians lat2) (radians lat1), hs (radians lon2) (radians lon1),
    mul_comm (Real.cos (radians lat1)) (Real.cos (radians lat2))]

theorem calculate_distance_nonneg (lat1 lon1 lat2 lon2 : ℝ) :
    0 ≤ calculate_distance lat1 lon1 lat2 lon2 := by
  simp only [calculate_distance]
  have h : 0 ≤ atan2 (Real.sqrt (Real.sin ((radians lat2 - radians lat1) / 2) ^ 2 +
      Real.cos (radians lat1) * Real.cos (radians lat2) *
        Real.sin ((radians lon2 - radians lon1) / 2) ^ 2))
      (Real.sqrt (1 - (Real.sin ((radians lat2 - radians lat1) / 2) ^ 2 +
        Real.cos (radians lat1) * Real.cos (radians lat2) *
          Real.sin ((radians lon2 - radians lon1) / 2) ^ 2))) :=
    atan2_nonneg _ _ (Real.sqrt_nonneg _)
  nlinarith [h]

/-- Claim C9: the Haversine distance of a point to itself is `0`, and the
distance is symmetric in its two coordinate pairs (and, being a total
function of real inputs, it errors on no numeric input). -/
theorem calculate_distance_self_and_symm (lat1 lon1 lat2 lon2 : ℝ) :
    calculate_distance lat1 lon1 lat1 lon1 = 0 ∧
    calculate_distance lat1 lon1 lat2 lon2 = calculate_distance lat2 lon2 lat1 lon1 :=
  ⟨calculate_distance_self lat1 lon1, calculate_distance_symm lat1 lon1 lat2 lon2⟩

theorem create_distance_matrix_nonneg (locations : List (ℝ × ℝ)) (i j : ℕ) :
    0 ≤ create_distance_matrix locations i j := by
  unfold create_distance_matrix
  split
  · exact le_refl 0
  · exact calculate_distance_nonneg _ _ _ _

theorem calculate_route_distance_nonneg (D : ℕ → ℕ → α) (hD : ∀ i j, 0 ≤ D i j) :
    ∀ route, 0 ≤ calculate_route_distance D route := by
  intro route
  induction route with
  | nil => exact le_refl 0
  | cons a rest ih =>
    cases rest with
    | nil => exact le_refl 0
    | cons b rest2 => exact add_nonneg (hD a b) ih

/-! ## Depot selection -/

theorem selLoop_cases (sc : Depot → ℝ) :
    ∀ (l : List Depot) (idx best : ℕ) (m : Option ℝ),
      selLoop sc l idx best m = best ∨
        ∃ k, k < l.length ∧ selLoop sc l idx best m = idx + k := by
  intro l
  induction l with
  | nil =>
    intro idx best m
    left
    cases m <;> rfl
  | cons d ds ih =>
    intro idx best m
    cases m with
    | none =>
      rcases ih (idx + 1) idx (some (sc d)) with h | ⟨k, hk, h⟩
      · right
        exact ⟨0, Nat.succ_pos _, by rw [selLoop, h]; omega⟩
      · right
        refine ⟨k + 1, Nat.succ_lt_succ hk, ?_⟩
        rw [selLoop, h]
        omega
    | some v =>
      by_cases hc : sc d < v
      · rcases ih (idx + 1) idx (some (sc d)) with h | ⟨k, hk, h⟩
        · right
          exact ⟨0, Nat.succ_pos _, by rw [selLoop, if_pos hc, h]; omega⟩
        · right
          refine ⟨k + 1, Nat.succ_lt_succ hk, ?_⟩
          rw [selLoop, if_pos hc, h]
          omega
      · rcases ih (idx + 1) best (some v) with h | ⟨k, hk, h⟩
        · left
          rw [selLoop, if_neg hc, h]
        · right
          refine ⟨k + 1, Nat.succ_lt_succ hk, ?_⟩
          rw [selLoop, if_neg hc, h]
          omega

/-- On a non-empty depot list the selection loop returns an in-range index,
so `iloc` succeeds and `select_optimal_depot` returns that index with its
depot row. -/
theorem select_optimal_depot_cons (day_data : List CollectionRow) (d : Depot) (ds : List Depot) :
    ∃ k, ∃ hk : k < (d :: ds).length,
      select_optimal_depot day_data (d :: ds) = some (k, (d :: ds).get ⟨k, hk⟩) := by
  have hidx : selLoop (depot_day_distance day_data) (d :: ds) 0 0 none < (d :: ds).length := by
    rcases selLoop_cases (depot_day_distance day_data) (d :: ds) 0 0 none with h | ⟨k, hk, h⟩
    · rw [h]
      exact Nat.succ_pos _
    · rw [h]
      simpa using hk
  refine ⟨selLoop (depot_day_distance day_data) (d :: ds) 0 0 none, hidx, ?_⟩
  simp only [select_optimal_depot]
  rw [List.get?_eq_get hidx]
  rfl

/-- The invariant of the `select_optimal_depot` loop over a running best
index and best total: it ends on the first strict minimum among the depots
still to scan, or keeps the incumbent when none beats it. -/
theorem selLoop_min (sc : Depot → ℝ) :
    ∀ (l : List Depot) (idx best : ℕ) (m : ℝ),
      (selLoop sc l idx best (some m) = best ∧ ∀ e ∈ l, m ≤ sc e) ∨
      (∃ k, ∃ hk : k < l.length, selLoop sc l idx best (some m) = idx + k ∧
        sc (l.get ⟨k, hk⟩) < m ∧
        (∀ jf : Fin l.length, sc (l.get ⟨k, hk⟩) ≤ sc (l.get jf)) ∧
        (∀ jf : Fin l.length, (jf : ℕ) < k → sc (l.get ⟨k, hk⟩) < sc (l.get jf))) := by
  intro l
  induction l with
  | nil =>
    intro idx best m
    left
    exact ⟨rfl, by simp⟩
  | cons d ds ih =>
    intro idx best m
    by_cases hc : sc d < m
    · rcases ih (idx + 1) idx (sc d) with ⟨hret, hall⟩ | ⟨k, hk, hret, hlt, hmin, hfirst⟩
      · right
        refine ⟨0, Nat.succ_pos _, ?_, hc, ?_, ?_⟩
        · rw [selLoop, if_pos hc, hret]
          omega
        · intro jf
          rcases jf with ⟨jv, hjv⟩
          cases jv with
          | zero => exact le_refl _
          | succ j2 => exact hall _ (List.get_mem ds j2 (Nat.lt_of_succ_lt_succ hjv))
        · intro jf hjf
          exact absurd hjf (Nat.not_lt_zero _)
      · right
        refine ⟨k + 1, Nat.succ_lt_succ hk, ?_, lt_trans hlt hc, ?_, ?_⟩
        · rw [selLoop, if_pos hc, hret]
          omega
        · intro jf
          rcases jf with ⟨jv, hjv⟩
          cases jv with
          | zero => exact le_of_lt hlt
          | succ j2 => exact hmin ⟨j2, Nat.lt_of_succ_lt_succ hjv⟩
        · intro jf hjf
          rcases jf with ⟨jv, hjv⟩
          cases jv with
          | zero => exact hlt
          | succ j2 => exact hfirst ⟨j2, Nat.lt_of_succ_lt_succ hjv⟩ (Nat.lt_of_succ_lt_succ hjf)
    · have hcle : m ≤ sc d := not_lt.mp hc
      rcases ih (idx + 1) best m with ⟨hret, hall⟩ | ⟨k, hk, hret, hlt, hmin, hfirst⟩
      · left
        constructor
        · rw [selLoop, if_neg hc, hret]
        · intro e he
          rcases List.mem_cons.mp he with rfl | he2
          · exact hcle
          · exact hall e he2
      · right
        refine ⟨k + 1, Nat.succ_lt_succ hk, ?_, hlt, ?_, ?_⟩
        · rw [selLoop, if_neg hc, hret]
          omega
        · intro jf
          rcases jf with ⟨jv, hjv⟩
          cases jv with
          | zero => exact le_of_lt (lt_of_lt_of_le hlt hcle)
          | succ j2 => exact hmin ⟨j2, Nat.lt_of_succ_lt_succ hjv⟩
        · intro jf hjf
          rcases jf with ⟨jv, hjv⟩
          cases jv with
          | zero => exact lt_of_lt_of_le hlt hcle
          | succ j2 => exact hfirst ⟨j2, Nat.lt_of_succ_lt_succ hjv⟩ (Nat.lt_of_succ_lt_succ hjf)

/-- Claim C6: on a non-empty depot candidate list, `select_optimal_depot`
returns an index and depot whose summed distance to the day's collection
points is minimal, and any depot earlier in candidate order has a strictly
larger sum (ties are won by the first occurrence). -/
theorem select_optimal_depot_min (day_data : List CollectionRow) (d : Depot) (ds : List Depot) :
    ∃ k, ∃ hk : k < (d :: ds).length,
      select_optimal_depot day_data (d :: ds) = some (k, (d :: ds).get ⟨k, hk⟩) ∧
      (∀ jf : Fin (d :: ds).length,
        depot_day_distance day_data ((d :: ds).get ⟨k, hk⟩) ≤
          depot_day_distance day_data ((d :: ds).get jf)) ∧
      (∀ jf : Fin (d :: ds).length, (jf : ℕ) < k →
        depot_day_distance day_data ((d :: ds).get ⟨k, hk⟩) <
          depot_day_distance day_data ((d :: ds).get jf)) := by
  have hstep : selLoop (depot_day_distance day_data) (d :: ds) 0 0 none =
      selLoop (depot_day_distance day_data) (d :: ds) 0 0
        (some (depot_day_distance day_data d + 1)) := by
    rw [selLoop, selLoop, if_pos (lt_add_one (depot_day_distance day_data d))]
  rcases selLoop_min (depot_day_distance day_data) (d :: ds) 0 0
      (depot_day_distance day_data d + 1) with
    ⟨hret, hall⟩ | ⟨k, hk, hret, hlt, hmin, hfirst⟩
  · exact absurd (hall d (List.mem_cons_self d ds))
      (not_le.mpr (lt_add_one (depot_day_distance day_data d)))
  · refine ⟨k, hk, ?_, hmin, hfirst⟩
    simp only [select_optimal_depot]
    rw [hstep, hret, Nat.zero_add, List.get?_eq_get hk]
    rfl

/-! ## The per-day planner: efficiency and the price merge -/

/-- When the depot selection succeeds, the whole per-day pass succeeds (the
location list holds the depot, so the matrix is at least `1 × 1` and the
tour construction cannot fail). -/
theorem optimize_day_some (day_data : List CollectionRow) (depots : List Depot)
    (prices : List (String × ℝ)) (k : ℕ) (dep : Depot)
    (hsel : select_optimal_depot day_data depots = some (k, dep)) :
    ∃ r, optimize_day day_data depots prices = some r := by
  unfold optimize_day
  rw [hsel]
  dsimp only
  rw [plan_route, nearest_neighbor_tsp,
    if_pos (show 0 < ((dep.Latitude, dep.Longitude) ::
      List.map (fun r => (r.Latitude, r.Longitude)) day_data).length from Nat.succ_pos _)]
  exact ⟨_, rfl⟩

/-- Every record the per-day pass emits has non-negative total distance and
the guarded efficiency: `revenue / distance` when `distance > 0`, else the
literal `0` from the guard. -/
theorem optimize_day_some_spec (day_data : List CollectionRow) (depots : List Depot)
    (prices : List (String × ℝ)) (r : DayResult)
    (h : optimize_day day_data depots prices = some r) :
    0 ≤ r.distance ∧ r.efficiency = if 0 < r.distance then r.revenue / r.distance else 0 := by
  unfold optimize_day at h
  split at h
  · exact Option.noConfusion h
  · dsimp only at h
    split at h
    · exact Option.noConfusion h
    · injection h with h2
      subst h2
      exact ⟨calculate_route_distance_nonneg _ (create_distance_matrix_nonneg _) _, rfl⟩

/-- Claim C8: on a non-empty depot list the per-day planner produces a
`DayResult` whose total distance is non-negative and whose efficiency equals
`revenue / distance` when the distance is strictly positive and exactly `0`
otherwise (in particular when the distance is `0`); the division is guarded,
so a division by zero never occurs. -/
theorem optimize_day_efficiency (day_data : List CollectionRow) (d : Depot) (ds : List Depot)
    (prices : List (String × ℝ)) :
    ∃ r, optimize_day day_data (d :: ds) prices = some r ∧ 0 ≤ r.distance ∧
      r.efficiency = if 0 < r.distance then r.revenue / r.distance else 0 := by
  obtain ⟨k, hk, hsel⟩ := select_optimal_depot_cons day_data d ds
  obtain ⟨r, hr⟩ := optimize_day_some day_data (d :: ds) prices k _ hsel
  obtain ⟨h1, h2⟩ := optimize_day_some_spec day_data (d :: ds) prices r hr
  exact ⟨r, hr, h1, h2⟩

/-- Prepending a price of `0` for a material the table does not price
changes no row's revenue: an unpriced row already contributes `0`. -/
theorem row_revenue_cons_zero (prices : List (String × ℝ)) (m : String)
    (h : List.lookup m prices = none) :
    row_revenue ((m, 0) :: prices) = row_revenue prices := by
  funext r
  rw [row_revenue, row_revenue]
  by_cases hm : r.Material = m
  · rw [hm, h]
    simp [List.lookup]
  · have hne : (r.Material == m) = false := by
      rw [beq_eq_false_iff_ne]
      exact hm
    simp [List.lookup, hne]

/-- The per-day pass cannot distinguish an unpriced material from one priced
at zero: no warning or marker reaches the emitted `DayResult`. -/
theorem optimize_day_unpriced (day_data : List CollectionRow) (depots : List Depot)
    (prices : List (String × ℝ)) (m : String) (h : List.lookup m prices = none) :
    optimize_day day_data depots ((m, 0) :: prices) =
      optimize_day day_data depots prices := by
  unfold optimize_day
  rw [row_revenue_cons_zero prices m h]

/-- Claim C4 (amended): a collection row whose material is missing from the
price table contributes `0` to the day's revenue, but no
`UnpricedMaterialWarning` exists anywhere in the day's result: the output is
identical to what a price of `0` for that material would produce, so the
condition is swallowed silently. -/
theorem unpriced_material_zero_and_silent (day_data : List CollectionRow)
    (depots : List Depot) (prices : List (String × ℝ)) (m : String)
    (h : List.lookup m prices = none) :
    (∀ r : CollectionRow, r.Material = m → row_revenue prices r = 0) ∧
    optimize_day day_data depots ((m, 0) :: prices) =
      optimize_day day_data depots prices := by
  constructor
  · intro r hr
    rw [row_revenue, hr, h]
  · exact optimize_day_unpriced day_data depots prices m h

/-- Claim C4 (counterexample to the claim as stated): for a concrete day
with one row of the unpriced material `"Glass"`, the day's result is equal
to the result computed with `"Glass"` priced at `0` — nothing referencing
the row is surfaced alongside the result, so no warning is emitted. -/
theorem unpriced_material_no_warning :
    optimize_day [⟨"Site A", "Glass", 5, 1, 2⟩] [⟨"Depot 1", 0, 0⟩] [("Glass", (0 : ℝ))] =
      optimize_day [⟨"Site A", "Glass", 5, 1, 2⟩] [⟨"Depot 1", 0, 0⟩] [] :=
  optimize_day_unpriced _ _ [] "Glass" rfl

/-- Claim C4 (witness): the amended statement at a concrete day, depot list
and price table. -/
theorem unpriced_material_zero_and_silent_example :
    List.lookup "Glass" [("Paper", (2 : ℝ))] = none ∧
    ((∀ r : CollectionRow, r.Material = "Glass" → row_revenue [("Paper", (2 : ℝ))] r = 0) ∧
      optimize_day [⟨"Site A", "Glass", 5, 1, 2⟩] [⟨"Depot 1", 0, 0⟩]
          (("Glass", 0) :: [("Paper", (2 : ℝ))]) =
        optimize_day [⟨"Site A", "Glass", 5, 1, 2⟩] [⟨"Depot 1", 0, 0⟩] [("Paper", (2 : ℝ))]) :=
  ⟨rfl, unpriced_material_zero_and_silent [⟨"Site A", "Glass", 5, 1, 2⟩]
    [⟨"Depot 1", 0, 0⟩] [("Paper", (2 : ℝ))] "Glass" rfl⟩

/-! ## Claim C3: the optimization level never reaches the planner -/

/-- Four collinear locations (coordinates 0, 1, -2, 4 on a line): an instance
on which the nearest-neighbor tour is not 2-opt optimal. -/
def linePos : ℕ → ℤ
  | 1 => 1
  | 2 => -2
  | 3 => 4
  | _ => 0

/-- The distance matrix of `linePos`. -/
def lineMatrix (i j : ℕ) : ℤ := |linePos i - linePos j|

/-- Claim C3: `config.OPTIMIZATION_LEVELS` does map Basic / Advanced /
Premium to budgets 0 / 1000 / 5000, but the planning pass (`plan_route`,
lines 182-183) always runs `two_opt_improvement` with the default budget
1000: on the `lineMatrix` instance its output differs from the
nearest-neighbor tour, which budget 0 (the configured "Basic" policy) would
have returned unchanged. -/
theorem optimization_level_not_consumed :
    OPTIMIZATION_LEVELS "Basic (Nearest Neighbor)" = some ⟨0, "nearest_neighbor"⟩ ∧
    OPTIMIZATION_LEVELS "Advanced (2-Opt)" = some ⟨1000, "two_opt"⟩ ∧
    OPTIMIZATION_LEVELS "Premium (Multi-iteration)" = some ⟨5000, "two_opt_premium"⟩ ∧
    nearest_neighbor_tsp lineMatrix 4 0 = some [0, 1, 2, 3, 0] ∧
    two_opt_improvement [0, 1, 2, 3, 0] lineMatrix 0 = [0, 1, 2, 3, 0] ∧
    plan_route lineMatrix 4 = some [0, 2, 1, 3, 0] ∧
    [0, 2, 1, 3, 0] ≠ [0, 1, 2, 3, 0] := by
  refine ⟨?_, ?_, ?_, ?_, ?_, ?_, ?_⟩ <;> decide

end RecyclingRouteOptimizer
